import Mathlib

/-!
Verification of the trough client `mtx_client.py` against its specification.

The development shallowly embeds the protocol layer (response parsing,
field coercion, result shaping of `Trough.call`), the socket line reader,
and the `PollData` background poller (drain loop, error path, the
interval / error / quit controls and their wake event).

Modelling conventions:
- Python strings are Lean `String` (a wrapper around `List Char`); the
  embedding works on `toList` where convenient.
- Python `float` values are modelled exactly as normalised decimal
  numbers `m * 10 ^ e` (the value every accepted float literal denotes);
  IEEE rounding, `inf`, `nan` and underscore separators are outside the
  model.
- Python `int` parsing is modelled as an optional sign followed by ASCII
  digits (underscore separators and surrounding whitespace are outside
  the model; protocol fields are whitespace free by construction).
- Exceptions are explicit: fallible steps return `Except PyErr`.
-/

/-- Exact decimal number `m * 10 ^ e`, the value domain of parsed Python
float literals.  Values are kept in normal form: `m` is not divisible by
ten unless it is zero, and zero is `⟨0, 0⟩`, so two `Dec`s are equal
exactly when they denote the same number. -/
structure Dec where
  m : ℤ
  e : ℤ
deriving DecidableEq, Repr

/-- Strip factors of ten from `m` into the exponent; the first argument
is fuel bounding the number of strip steps. -/
def mkDecAux : ℕ → ℤ → ℤ → ℤ × ℤ
  | 0, m, e => (m, e)
  | f + 1, m, e => if m % 10 = 0 ∧ m ≠ 0 then mkDecAux f (m / 10) (e + 1) else (m, e)

/-- Normalised decimal number with value `m * 10 ^ e`. -/
def mkDec (m e : ℤ) : Dec :=
  if m = 0 then ⟨0, 0⟩
  else
    let p := mkDecAux m.natAbs m e
    ⟨p.1, p.2⟩

/-- Coerced protocol field values: `_map_str_to_number` produces a Python
int, float, bool, or leaves the string unchanged. -/
inductive PyVal where
  | int (n : ℤ)
  | real (d : Dec)
  | bool (b : Bool)
  | str (s : String)
deriving DecidableEq, Repr

/-- Python exceptions that the embedded code can produce.  `troughError`
is the `TroughError` of the source; `pollDataError` is `PollDataError`
(never actually constructible, see `get_data`); the rest are builtin
Python exceptions reachable from the embedded paths. -/
inductive PyErr where
  | troughError (msg : String)
  | pollDataError (msg : String) (dataAcc : List (List PyVal))
  | typeError (msg : String)
  | attributeError (msg : String)
  | indexError (msg : String)
  | connectionError (msg : String)
deriving DecidableEq, Repr

/-- Return value of `Trough.call`: Python `None`, a single value, or a
tuple of values. -/
inductive CallRet where
  | retNone
  | val (v : PyVal)
  | tup (l : List PyVal)
deriving DecidableEq, Repr

/-- Whether an exception is a (builtin) `ConnectionError`. -/
def isConnErr : PyErr → Bool
  | .connectionError _ => true
  | _ => false

/-- Numeric value of an ASCII digit character. -/
def digitVal (c : Char) : Option ℕ :=
  if '0' ≤ c ∧ c ≤ '9' then some (c.toNat - '0'.toNat) else none

/-- Accumulating base-10 evaluation of a digit-character list; fails on
the first non-digit. -/
def digitsValAux : List Char → ℕ → Option ℕ
  | [], acc => some acc
  | c :: cs, acc =>
    match digitVal c with
    | some d => digitsValAux cs (acc * 10 + d)
    | none => none

/-- Value of a nonempty all-digit character list, `none` otherwise. -/
def digitsVal (cs : List Char) : Option ℕ :=
  if cs = [] then none else digitsValAux cs 0

/-- Python `int(s)` on a field string: optional sign then digits. -/
def pyIntOfChars (cs : List Char) : Option ℤ :=
  match cs with
  | [] => none
  | c :: rest =>
    if c = '+' then (digitsVal rest).map Int.ofNat
    else if c = '-' then (digitsVal rest).map (fun n => -(Int.ofNat n))
    else (digitsVal (c :: rest)).map Int.ofNat

def pyInt (s : String) : Option ℤ := pyIntOfChars s.toList

/-- Take a maximal run of leading digits, returning their values and the
rest of the input. -/
def takeDigits : List Char → List ℕ × List Char
  | [] => ([], [])
  | c :: cs =>
    match digitVal c with
    | some d =>
      let p := takeDigits cs
      (d :: p.1, p.2)
    | none => ([], c :: cs)

/-- Big-endian digit list to natural number. -/
def natOfDigitList (ds : List ℕ) : ℕ := ds.foldl (fun a d => a * 10 + d) 0

/-- Mantissa part of a Python float literal: `digits [. digits]` or
`. digits`.  Returns the integer-part value, the fraction-part value and
digit count, and the rest of the input. -/
def pyFloatMantissa (cs : List Char) : Option ((ℕ × ℕ × ℕ) × List Char) :=
  let ip := takeDigits cs
  match ip.2 with
  | '.' :: rest2 =>
    let fp := takeDigits rest2
    if ip.1 = [] ∧ fp.1 = [] then none
    else some ((natOfDigitList ip.1, natOfDigitList fp.1, fp.1.length), fp.2)
  | _ => if ip.1 = [] then none else some ((natOfDigitList ip.1, 0, 0), ip.2)

/-- Optional exponent suffix of a float literal, applied to the mantissa
value `m * 10 ^ e0`. -/
def pyFloatExp (m e0 : ℤ) (r : List Char) : Option Dec :=
  match r with
  | '+' :: r2 => (digitsVal r2).map (fun ex => mkDec m (e0 + ex))
  | '-' :: r2 => (digitsVal r2).map (fun ex => mkDec m (e0 - ex))
  | _ => (digitsVal r).map (fun ex => mkDec m (e0 + ex))

/-- Python `float(s)` on a field string, as an exact decimal:
`[sign] mantissa [(e|E) [sign] digits]`. -/
def pyFloatOfChars (cs : List Char) : Option Dec :=
  let sp : ℤ × List Char :=
    match cs with
    | '+' :: r => (1, r)
    | '-' :: r => (-1, r)
    | _ => (1, cs)
  match pyFloatMantissa sp.2 with
  | none => none
  | some (t, rest) =>
    let m : ℤ := sp.1 * ((t.1 : ℤ) * 10 ^ t.2.2 + (t.2.1 : ℤ))
    let e0 : ℤ := -(t.2.2 : ℤ)
    match rest with
    | [] => some (mkDec m e0)
    | 'e' :: r => pyFloatExp m e0 r
    | 'E' :: r => pyFloatExp m e0 r
    | _ => none

def pyFloat (s : String) : Option Dec := pyFloatOfChars s.toList

instance {α β : Type} [DecidableEq α] [DecidableEq β] : DecidableEq (Except α β) := fun x y =>
  match x, y with
  | .error a, .error b =>
    if h : a = b then isTrue (by rw [h]) else isFalse (fun hc => by cases hc; exact h rfl)
  | .ok a, .ok b =>
    if h : a = b then isTrue (by rw [h]) else isFalse (fun hc => by cases hc; exact h rfl)
  | .error _, .ok _ => isFalse (fun hc => by cases hc)
  | .ok _, .error _ => isFalse (fun hc => by cases hc)

/-- ASCII lower-casing of one character, as Python `str.lower` does on
the ASCII range. -/
def pyLowerChar (c : Char) : Char :=
  if 'A' ≤ c ∧ c ≤ 'Z' then Char.ofNat (c.toNat + 32) else c

def pyLower (s : String) : String := String.mk (s.toList.map pyLowerChar)

/-- Fallback of `str_to_number` when numeric conversion raised
`ValueError`: the `bools` dictionary lookup on the lower-cased text,
returning the original string on `KeyError`. -/
def tryBools (s : String) : PyVal :=
  if pyLower s = "false" then .bool false
  else if pyLower s = "true" then .bool true
  else .str s

/-- The inner `str_to_number` of `Trough._map_str_to_number`: if the text
contains a dot try `float`, otherwise try `int`; on `ValueError` fall
back to the boolean dictionary, then to the unchanged string. -/
def str_to_number (s : String) : PyVal :=
  if '.' ∈ s.toList then
    match pyFloat s with
    | some q => .real q
    | none => tryBools s
  else
    match pyInt s with
    | some n => .int n
    | none => tryBools s

/-- `Trough._map_str_to_number`: coerce every raw field. -/
def map_str_to_number (l : List String) : List PyVal := l.map str_to_number

/-- Python whitespace characters recognised by `str.split(None)`
(ASCII range). -/
def isSpace (c : Char) : Bool :=
  c = ' ' ∨ c = '\t' ∨ c = '\n' ∨ c = '\r' ∨ c = Char.ofNat 11 ∨ c = Char.ofNat 12

/-- Helper for `splitWs`: `acc` holds the current token reversed. -/
def splitWsAux : List Char → List Char → List (List Char)
  | [], acc => if acc = [] then [] else [acc.reverse]
  | c :: cs, acc =>
    if isSpace c then
      if acc = [] then splitWsAux cs [] else acc.reverse :: splitWsAux cs []
    else splitWsAux cs (c :: acc)

/-- Python `str.split(None)`: split on whitespace runs, discarding empty
tokens. -/
def splitWs (cs : List Char) : List (List Char) := splitWsAux cs []

/-- Python `str.split(sep, 1)` for a one-character separator: the part
before the first occurrence and the part after it, or `none` when the
separator does not occur. -/
def pySplitFirst (sep : Char) : List Char → Option (List Char × List Char)
  | [] => none
  | c :: cs =>
    if c = sep then some ([], cs)
    else (pySplitFirst sep cs).map (fun p => (c :: p.1, p.2))

/-- Message of the `AttributeError` raised when the response is `None`
because the peer closed the connection. -/
def noneSplitMsg : String := "NoneType object has no attribute split"

/-- `Trough._parse_response`: split at the first colon, demand the part
before it to start with OK, and split the remainder on whitespace.  The
argument is `none` when `_readline` returned `None` (peer closed), in
which case `response.split` raises `AttributeError`. -/
def parse_response (response : Option String) : Except PyErr (List String) :=
  match response with
  | none => .error (.attributeError noneSplitMsg)
  | some r =>
    match pySplitFirst ':' r.toList with
    | none => .error (.troughError r)
    | some p =>
      if p.1.take 2 = ['O', 'K'] then .ok ((splitWs p.2).map String.mk)
      else .error (.troughError r)

/-- Result shaping at the end of `Trough.call`: keep the whole tuple for
`GetData` and `DeviceIdentification`, otherwise drop the status code as
the source does for each result length. -/
def shape_call (method : String) (result : List PyVal) : CallRet :=
  if method = "GetData" then .tup result
  else if method = "DeviceIdentification" then .tup result
  else
    match result with
    | [] => .retNone
    | [v] => .val v
    | [_, v] => .val v
    | _ :: rest => .tup rest

/-- `Trough.call` from the response line onward: parse, coerce, shape.
The send and readline steps are modelled by handing the function the
response the readline produced (`none` when the peer closed). -/
def trough_call (method : String) (response : Option String) : Except PyErr CallRet :=
  match parse_response response with
  | .error e => .error e
  | .ok fields => .ok (shape_call method (map_str_to_number fields))

/-- True when the accumulated byte string ends with the line terminator
`self.line_end = b"\n"`. -/
def endsWithNl (s : String) : Bool := s.toList.getLast? = some '\n'

/-- `Trough._readline` over a stream of `recv` chunks: accumulate chunks
until the accumulated data ends with the terminator; an empty chunk
means the peer closed and yields `some none` (the bare `return`);
exhausting the modelled chunk list means `recv` would block, yielding
`none`. -/
def readline : List String → String → Option (Option String)
  | [], _ => none
  | chunk :: rest, acc =>
    if chunk = "" then some none
    else
      let s := acc ++ chunk
      if endsWithNl s then some (some s) else readline rest s

/-- One `Trough.call` round trip reading its response from the chunk
stream. -/
def call_net (method : String) (chunks : List String) : Option (Except PyErr CallRet) :=
  (readline chunks "").map (trough_call method)

/-- Python `count == 0` on a coerced field value: integer and float
zeros compare equal to `0`, as does `False`; strings never do. -/
def pyEqZero : PyVal → Bool
  | .int n => n == 0
  | .real d => d.m == 0
  | .bool b => b == false
  | .str _ => false

/-- Message of the `TypeError` raised inside `PollDataError.__init__`:
the source calls `Exception.__init__(msg)` without `self`, so the slot
wrapper receives a `str` where it requires a `BaseException`. -/
def typeErrorInitMsg : String :=
  "descriptor __init__ requires a BaseException object but received a str"

/-- `PollData.get_data` over the list of response lines the trough will
serve (`none` marks a response cut short by the peer closing).  Each
loop iteration issues one `GetData` call, appends the returned tuple to
the accumulated batch and stops when field 0 compares equal to zero.  A
`TroughError` from the call is caught, but constructing
`PollDataError(str(err), data)` raises `TypeError` (see
`typeErrorInitMsg`), so that is what propagates; any other exception
propagates unchanged.  `none` overall means the loop would block waiting
for a further response. -/
def get_data : List (Option String) → List (List PyVal) → Option (Except PyErr (List (List PyVal)))
  | [], _ => none
  | r :: rs, acc =>
    match trough_call "GetData" r with
    | .error (.troughError _) => some (.error (.typeError typeErrorInitMsg))
    | .error e => some (.error e)
    | .ok ret =>
      match ret with
      | .tup vals =>
        match vals with
        | [] => some (.error (.indexError "tuple index out of range"))
        | v :: _ =>
          if pyEqZero v then some (.ok (acc ++ [vals]))
          else get_data rs (acc ++ [vals])
      | _ => some (.error (.typeError "GetData result shaping always yields a tuple"))

/-- Outcome of one iteration of the `PollData.run` loop body (lines
before the inter-cycle wait), with both callbacks installed. -/
inductive CycleResult where
  | didData (batch : List (List PyVal))
  | skipped
  | latchedCrashed (msg : String) (dataAcc : List (List PyVal))
  | crashed (e : PyErr)
  | blocked
deriving DecidableEq, Repr

/-- One iteration of the `PollData.run` loop body: skip the cycle when
the error flag is set; otherwise run `get_data` and hand the batch to
`datacb` exactly once.  The `except PollDataError` clause would set the
error flag and then crash looking up the misspelled `self.errorcb`
(`latchedCrashed`); any other exception is uncaught and kills the thread
(`crashed`). -/
def run_cycle (errFlag : Bool) (responses : List (Option String)) : CycleResult :=
  if errFlag then .skipped
  else
    match get_data responses [] with
    | none => .blocked
    | some (.ok batch) => .didData batch
    | some (.error (.pollDataError m d)) => .latchedCrashed m d
    | some (.error e) => .crashed e

/-- Control state of the `PollData` thread: the wake event, the error
and quit flags, and the stored `_interval`. -/
structure PollCtl where
  event : Bool
  error : Bool
  quit : Bool
  interval : ℚ
deriving DecidableEq

/-- The `interval` property setter: it sets the wake event when the new
interval is strictly shorter than the stored one, and never stores the
new interval (the assignment to `_interval` is absent in the source). -/
def setInterval (s : PollCtl) (v : ℚ) : PollCtl :=
  if v < s.interval then { s with event := true } else s

/-- The `error` property setter: stores the flag and sets the wake event
unconditionally. -/
def setErrorFlag (s : PollCtl) (v : Bool) : PollCtl :=
  { s with error := v, event := true }

/-- `PollData.quit`: set the quit flag and the wake event (the `join`
is outside the state model). -/
def quitPoll (s : PollCtl) : PollCtl :=
  { s with quit := true, event := true }

/-- The external controls of the poller. -/
inductive Ctl where
  | setIntervalOp (v : ℚ)
  | setErrorOp (v : Bool)
  | quitOp
deriving DecidableEq

def applyCtl (s : PollCtl) : Ctl → PollCtl
  | .setIntervalOp v => setInterval s v
  | .setErrorOp v => setErrorFlag s v
  | .quitOp => quitPoll s

def applyCtls (s : PollCtl) (ops : List Ctl) : PollCtl := ops.foldl applyCtl s

/-- `threading.Event.wait(timeout)` returns immediately exactly when the
internal flag is set; it never clears the flag, and nothing in the
source ever calls `clear`. -/
def waitImmediate (s : PollCtl) : Bool := s.event

/-- The device status names of `dst_to_str`, in order. -/
def dst_strs : List String :=
  ["Idle", "Tensiometer", "CompressionIsotherm", "ConstantArea",
   "ConstantPressure", "Manual", "TargetReached", "BarrierInit", "BarrierInitDone"]

/-- Python list indexing `l[i]` with an `int` index: negative indices
count from the end; out-of-range indexing raises `IndexError`, modelled
as `none`. -/
def pyListGet (l : List String) (i : ℤ) : Option String :=
  if 0 ≤ i then l.get? i.toNat
  else
    if 0 ≤ (l.length : ℤ) + i then l.get? ((l.length : ℤ) + i).toNat else none

/-- Little-endian base-10 digits of a natural number; the first argument
is fuel bounding the recursion depth. -/
def natDigitsRevAux : ℕ → ℕ → List ℕ
  | 0, _ => []
  | _, 0 => []
  | f + 1, n => n % 10 :: natDigitsRevAux f (n / 10)

def natDigitsRev (n : ℕ) : List ℕ := natDigitsRevAux n n

/-- ASCII digit character of a digit value. -/
def digitChar10 (d : ℕ) : Char := Char.ofNat (48 + d)

/-- Python `str(n)` for a nonnegative integer. -/
def natStrChars (n : ℕ) : List Char :=
  if n = 0 then ['0'] else (natDigitsRev n).reverse.map digitChar10

/-- Python `str(n)` for an `int`. -/
def intStrChars (n : ℤ) : List Char :=
  if n < 0 then '-' :: natStrChars n.natAbs else natStrChars n.natAbs

def intStr (n : ℤ) : String := String.mk (intStrChars n)

/-- Exponent suffix of Python float repr: a sign and at least two
digits. -/
def decExpPart (p : ℤ) : List Char :=
  let ds := natStrChars p.natAbs
  let ds2 := if ds.length < 2 then '0' :: ds else ds
  (if p < 0 then '-' else '+') :: ds2

/-- Python `str` of the positive float `m * 10 ^ e` (`m` positive and
not divisible by ten): fixed notation with a mandatory fraction part
when the leading digit sits at decimal position `-4 ≤ p < 16`, exponent
notation otherwise. -/
def pyFloatStrPos (m : ℕ) (e : ℤ) : List Char :=
  let ds := natStrChars m
  let p : ℤ := (ds.length : ℤ) - 1 + e
  if -4 ≤ p ∧ p < 16 then
    if 0 ≤ e then ds ++ List.replicate e.toNat '0' ++ ['.', '0']
    else
      let k := (-e).toNat
      if k < ds.length then ds.take (ds.length - k) ++ '.' :: ds.drop (ds.length - k)
      else '0' :: '.' :: (List.replicate (k - ds.length) '0' ++ ds)
  else
    match ds with
    | [] => []
    | dh :: rest =>
      if rest = [] then dh :: 'e' :: decExpPart p
      else dh :: '.' :: rest ++ 'e' :: decExpPart p

/-- Python `str` of a float value, modelled on exact decimals (for the
floats arising here the shortest-repr digits are exactly the normal-form
digits of the decimal). -/
def pyFloatStr (d : Dec) : String :=
  if d.m = 0 then "0.0"
  else String.mk ((if d.m < 0 then ['-'] else []) ++ pyFloatStrPos d.m.natAbs d.e)

/-- Python `str` of a coerced value: its canonical string rendering. -/
def pyStrOfVal : PyVal → String
  | .int n => intStr n
  | .real d => pyFloatStr d
  | .bool true => "True"
  | .bool false => "False"
  | .str s => s

/-- `dst_to_str`: index the status-name list with the raw integer; an
`IndexError` produces the fallback diagnostic text. -/
def dst_to_str (i : ℤ) : String :=
  match pyListGet dst_strs i with
  | some s => s
  | none => "Invalid device status value: " ++ intStr i

theorem applyCtl_event (s : PollCtl) (op : Ctl) (h : s.event = true) :
    (applyCtl s op).event = true := by
  cases op with
  | setIntervalOp v =>
    simp only [applyCtl, setInterval]
    split <;> simp [h]
  | setErrorOp v => rfl
  | quitOp => rfl

theorem applyCtls_event (ops : List Ctl) (s : PollCtl) (h : s.event = true) :
    (applyCtls s ops).event = true := by
  induction ops generalizing s with
  | nil => exact h
  | cons op ops ih => exact ih (applyCtl s op) (applyCtl_event s op h)

/-- C9: the wake event is set by an interval assignment with a shorter
value, by any assignment to the error flag and by a shutdown request;
no operation ever clears it, so once it is set it stays set under every
sequence of controls and every later inter-cycle wait returns
immediately. -/
theorem wake_event_never_reset (s : PollCtl) (v : ℚ) (b : Bool) (ops : List Ctl) :
    (v < s.interval → (setInterval s v).event = true) ∧
    (setErrorFlag s b).event = true ∧
    (quitPoll s).event = true ∧
    (s.event = true → (applyCtls s ops).event = true ∧
      waitImmediate (applyCtls s ops) = true) := by
  refine ⟨?_, rfl, rfl, ?_⟩
  · intro hv
    simp [setInterval, hv]
  · intro h
    exact ⟨applyCtls_event ops s h, applyCtls_event ops s h⟩

theorem wake_event_never_reset_witness :
    (0 : ℚ) < 1 ∧
    (setInterval ⟨false, false, false, 1⟩ 0).event = true ∧
    (applyCtls ⟨true, false, false, 1⟩ [.setErrorOp false, .quitOp]).event = true := by
  refine ⟨zero_lt_one, ?_, ?_⟩
  · exact (wake_event_never_reset ⟨false, false, false, 1⟩ 0 true []).1 zero_lt_one
  · exact ((wake_event_never_reset ⟨true, false, false, 1⟩ 0 true
      [.setErrorOp false, .quitOp]).2.2.2 rfl).1

/-- C2 (code bug): the interval setter wakes the timer when the new
value is strictly shorter and leaves the state untouched otherwise, but
it never stores the new interval — the assignment to `_interval` is
missing from the source, contradicting the setter docstring. -/
theorem interval_setter_never_stores :
    (setInterval ⟨false, false, false, 1⟩ 0).interval = 1 ∧
    (setInterval ⟨false, false, false, 1⟩ 0).interval ≠ 0 ∧
    (setInterval ⟨false, false, false, 1⟩ 0).event = true ∧
    setInterval ⟨false, false, false, 1⟩ 2 = ⟨false, false, false, 1⟩ := by
  refine ⟨?_, ?_, ?_, ?_⟩ <;> norm_num [setInterval]

/-- C1 (code bug): a drain failure does not latch the error flag and
invoke the error callback — constructing `PollDataError` raises
`TypeError` because `Exception.__init__(msg)` omits `self`, the
`except PollDataError` clause in `run` therefore never matches, and the
thread crashes; cycles with the error flag already set are skipped. -/
theorem poll_error_crash :
    trough_call "GetData" (some "ERR\n") = .error (.troughError "ERR\n") ∧
    get_data [some "ERR\n"] [] = some (.error (.typeError typeErrorInitMsg)) ∧
    run_cycle false [some "ERR\n"] = .crashed (.typeError typeErrorInitMsg) ∧
    run_cycle true [some "ERR\n"] = .skipped := by decide

/-- C3: `call` keeps the whole coerced tuple for `GetData` and
`DeviceIdentification`, and otherwise shapes by length — empty result,
single value, second of two, or the tuple without its first field. -/
theorem call_shaping (method line : String) (fields : List String) (vals : List PyVal)
    (hp : parse_response (some line) = .ok fields)
    (hv : vals = map_str_to_number fields) :
    trough_call method (some line) = .ok (shape_call method vals) ∧
    ((method = "GetData" ∨ method = "DeviceIdentification") →
      shape_call method vals = .tup vals) ∧
    (method ≠ "GetData" → method ≠ "DeviceIdentification" →
      (vals = [] → shape_call method vals = .retNone) ∧
      (∀ v, vals = [v] → shape_call method vals = .val v) ∧
      (∀ a b, vals = [a, b] → shape_call method vals = .val b) ∧
      (∀ a t, vals = a :: t → 2 ≤ t.length → shape_call method vals = .tup t)) := by
  subst hv
  refine ⟨?_, ?_, ?_⟩
  · unfold trough_call
    rw [hp]
  · rintro (rfl | rfl)
    · unfold shape_call
      rw [if_pos rfl]
    · unfold shape_call
      rw [if_neg (by decide), if_pos rfl]
  · intro h1 h2
    refine ⟨?_, ?_, ?_, ?_⟩
    · intro h
      rw [h]
      simp [shape_call, h1, h2]
    · intro v h
      rw [h]
      simp [shape_call, h1, h2]
    · intro a b h
      rw [h]
      simp [shape_call, h1, h2]
    · intro a t h hlen
      rw [h]
      rcases t with _ | ⟨x, _ | ⟨y, t'⟩⟩
      · simp at hlen
      · simp at hlen
      · simp [shape_call, h1, h2]

theorem call_shaping_witness :
    trough_call "GetData" (some "OK: 2 1 2 3\n") =
      .ok (shape_call "GetData" (map_str_to_number ["2", "1", "2", "3"])) ∧
    shape_call "GetData" (map_str_to_number ["2", "1", "2", "3"]) =
      .tup (map_str_to_number ["2", "1", "2", "3"]) :=
  ⟨(call_shaping "GetData" "OK: 2 1 2 3\n" ["2", "1", "2", "3"] _ (by decide) rfl).1,
   (call_shaping "GetData" "OK: 2 1 2 3\n" ["2", "1", "2", "3"] _ (by decide) rfl).2.1
     (Or.inl rfl)⟩

/-- C6 counterexample: the claim says any text parsing as a
floating-point number becomes Real at step two, but `"1e5"` parses as a
float (value `1 * 10 ^ 5`) and is nevertheless returned as unchanged
Text, because the source only tries `float` when the text contains a
dot. -/
theorem coerce_precedence_cex :
    pyFloat "1e5" = some ⟨1, 5⟩ ∧ str_to_number "1e5" = .str "1e5" := by decide

/-- C6 (amended): coercion never fails and branches on a dot — if the
text contains a dot, Real when it parses as a float; otherwise Integer
when it parses as a signed decimal integer; then Boolean when the
lower-cased text is true or false; otherwise the unchanged Text.  The
claimed examples hold. -/
theorem coerce_amended (s : String) :
    ('.' ∈ s.toList →
      (∀ d, pyFloat s = some d → str_to_number s = .real d) ∧
      (pyFloat s = none → str_to_number s = tryBools s)) ∧
    ('.' ∉ s.toList →
      (∀ n, pyInt s = some n → str_to_number s = .int n) ∧
      (pyInt s = none → str_to_number s = tryBools s)) ∧
    (pyLower s = "false" → tryBools s = .bool false) ∧
    (pyLower s = "true" → tryBools s = .bool true) ∧
    (pyLower s ≠ "false" → pyLower s ≠ "true" → tryBools s = .str s) ∧
    str_to_number "1" = .int 1 ∧ str_to_number "3.0" = .real ⟨3, 0⟩ ∧
    str_to_number "True" = .bool true ∧ str_to_number "fAlSe" = .bool false ∧
    str_to_number "abc" = .str "abc" := by
  refine ⟨?_, ?_, ?_, ?_, ?_, by decide, by decide, by decide, by decide, by decide⟩
  · intro hdot
    constructor
    · intro d hd
      unfold str_to_number
      rw [if_pos hdot, hd]
    · intro hn
      unfold str_to_number
      rw [if_pos hdot, hn]
  · intro hdot
    constructor
    · intro n hn
      unfold str_to_number
      rw [if_neg hdot, hn]
    · intro hn
      unfold str_to_number
      rw [if_neg hdot, hn]
  · intro h
    unfold tryBools
    rw [if_pos h]
  · intro h
    unfold tryBools
    rw [h]
    simp
  · intro h1 h2
    unfold tryBools
    rw [if_neg h1, if_neg h2]

theorem coerce_amended_witness :
    '.' ∈ "3.5".toList ∧ pyFloat "3.5" = some ⟨35, -1⟩ ∧
    str_to_number "3.5" = .real ⟨35, -1⟩ :=
  ⟨by decide, by decide,
   ((coerce_amended "3.5").1 (by decide)).1 ⟨35, -1⟩ (by decide)⟩

/-- C7 counterexample: when the peer closes before a full line, the
reader yields no response (`None`) and the caller then fails with an
`AttributeError` (calling `split` on `None`), not with a
`ConnectionError` as the claim states. -/
theorem readline_closed_cex :
    readline ["OK: 1 2", ""] "" = some none ∧
    trough_call "Foo" none = .error (.attributeError noneSplitMsg) ∧
    isConnErr (.attributeError noneSplitMsg) = false := by decide

/-- C7 (amended): an empty read yields no response, and the caller then
fails fatally — but with `AttributeError` from parsing the absent
response, not with a `ConnectionError`; the failure is never silent. -/
theorem readline_closed_amended (method : String) (chunks : List String)
    (h : readline chunks "" = some none) :
    call_net method chunks = some (.error (.attributeError noneSplitMsg)) ∧
    isConnErr (.attributeError noneSplitMsg) = false := by
  unfold call_net
  rw [h]
  exact ⟨rfl, rfl⟩

theorem readline_closed_amended_witness :
    readline ["OK", ""] "" = some none ∧
    call_net "GetData" ["OK", ""] = some (.error (.attributeError noneSplitMsg)) :=
  ⟨by decide, (readline_closed_amended "GetData" ["OK", ""] (by decide)).1⟩

theorem pySplitFirst_eq (cs : List Char) :
    pySplitFirst ':' cs =
      if ':' ∈ cs then
        some (cs.takeWhile (fun c => c != ':'), (cs.dropWhile (fun c => c != ':')).tail)
      else none := by
  induction cs with
  | nil => rfl
  | cons c cs ih =>
    by_cases hc : c = ':'
    · subst hc
      simp [pySplitFirst, List.takeWhile_cons, List.dropWhile_cons]
    · have hb : (c != ':') = true := by simp [hc]
      rw [show pySplitFirst ':' (c :: cs) =
            (pySplitFirst ':' cs).map (fun p => (c :: p.1, p.2)) from by
          simp [pySplitFirst, hc], ih]
      by_cases hm : ':' ∈ cs
      · rw [if_pos hm, if_pos (List.mem_cons_of_mem c hm)]
        simp [List.takeWhile_cons, List.dropWhile_cons, hb]
      · rw [if_neg hm, if_neg ?_]
        · rfl
        · intro h
          rcases List.mem_cons.mp h with h2 | h2
          · exact hc h2.symm
          · exact hm h2

theorem splitWsAux_tokens (cs : List Char) :
    ∀ acc, (∀ c ∈ acc, isSpace c = false) →
      ∀ l ∈ splitWsAux cs acc, l ≠ [] ∧ ∀ c ∈ l, isSpace c = false := by
  induction cs with
  | nil =>
    intro acc hacc l hl
    by_cases ha : acc = []
    · simp [splitWsAux, ha] at hl
    · simp only [splitWsAux, if_neg ha, List.mem_singleton] at hl
      subst hl
      refine ⟨by simpa using ha, ?_⟩
      intro c hc
      exact hacc c (List.mem_reverse.mp hc)
  | cons c cs ih =>
    intro acc hacc l hl
    by_cases hs : isSpace c = true
    · rw [splitWsAux, if_pos hs] at hl
      by_cases ha : acc = []
      · rw [if_pos ha] at hl
        exact ih [] (by intro d hd; cases hd) l hl
      · rw [if_neg ha] at hl
        rcases List.mem_cons.mp hl with rfl | hl2
        · refine ⟨by simpa using ha, ?_⟩
          intro d hd
          exact hacc d (List.mem_reverse.mp hd)
        · exact ih [] (by intro d hd; cases hd) l hl2
    · have hs' : isSpace c = false := by simpa using hs
      rw [splitWsAux, if_neg (by simp [hs'])] at hl
      refine ih (c :: acc) ?_ l hl
      intro d hd
      rcases List.mem_cons.mp hd with rfl | hd2
      · exact hs'
      · exact hacc d hd2

theorem parse_response_eq (line : String) :
    parse_response (some line) =
      if ':' ∈ line.toList then
        if (line.toList.takeWhile (fun c => c != ':')).take 2 = ['O', 'K'] then
          .ok ((splitWs ((line.toList.dropWhile (fun c => c != ':')).tail)).map String.mk)
        else .error (.troughError line)
      else .error (.troughError line) := by
  have hstep : parse_response (some line) =
      match pySplitFirst ':' line.toList with
      | none => .error (.troughError line)
      | some p =>
        if p.1.take 2 = ['O', 'K'] then .ok ((splitWs p.2).map String.mk)
        else .error (.troughError line) := rfl
  rw [hstep, pySplitFirst_eq]
  by_cases hm : ':' ∈ line.toList
  · rw [if_pos hm, if_pos hm]
  · rw [if_neg hm, if_neg hm]

/-- C5: parsing fails with a `TroughError` carrying the exact raw line
precisely when no colon is present or the part before the first colon
does not start with OK; otherwise it returns the remainder split on
whitespace, every token nonempty and whitespace free. -/
theorem parse_response_spec (line : String) :
    (parse_response (some line) = .error (.troughError line) ↔
      (':' ∉ line.toList ∨
        (line.toList.takeWhile (fun c => c != ':')).take 2 ≠ ['O', 'K'])) ∧
    (':' ∈ line.toList →
      (line.toList.takeWhile (fun c => c != ':')).take 2 = ['O', 'K'] →
      parse_response (some line) =
        .ok ((splitWs ((line.toList.dropWhile (fun c => c != ':')).tail)).map String.mk)) ∧
    (∀ fields, parse_response (some line) = .ok fields →
      ∀ t ∈ fields, t.toList ≠ [] ∧ ∀ c ∈ t.toList, isSpace c = false) := by
  have he := parse_response_eq line
  by_cases hm : ':' ∈ line.toList
  · by_cases hok : (line.toList.takeWhile (fun c => c != ':')).take 2 = ['O', 'K']
    · rw [if_pos hm, if_pos hok] at he
      refine ⟨?_, fun _ _ => he, ?_⟩
      · rw [he]
        constructor
        · intro h
          cases h
        · rintro (h | h)
          · exact absurd hm h
          · exact absurd hok h
      · intro fields hf t ht
        rw [he] at hf
        injection hf with hf
        subst hf
        rcases List.mem_map.mp ht with ⟨l, hl, rfl⟩
        have htk := splitWsAux_tokens _ [] (by intro d hd; cases hd) l hl
        exact ⟨htk.1, htk.2⟩
    · rw [if_pos hm, if_neg hok] at he
      refine ⟨?_, ?_, ?_⟩
      · rw [he]
        exact ⟨fun _ => Or.inr hok, fun _ => rfl⟩
      · intro _ h
        exact absurd h hok
      · intro fields hf
        rw [he] at hf
        cases hf
  · rw [if_neg hm] at he
    refine ⟨?_, ?_, ?_⟩
    · rw [he]
      exact ⟨fun _ => Or.inl hm, fun _ => rfl⟩
    · intro h
      exact absurd h hm
    · intro fields hf
      rw [he] at hf
      cases hf

theorem parse_response_spec_witness :
    ':' ∈ "OK: 5 9\n".toList ∧
    ("OK: 5 9\n".toList.takeWhile (fun c => c != ':')).take 2 = ['O', 'K'] ∧
    parse_response (some "OK: 5 9\n") =
      .ok ((splitWs (("OK: 5 9\n".toList.dropWhile (fun c => c != ':')).tail)).map String.mk) :=
  ⟨by decide, by decide, (parse_response_spec "OK: 5 9\n").2.1 (by decide) (by decide)⟩

/-- C10: `dst_to_str` returns the fallback diagnostic exactly when the
integer argument is at least nine or at most minus ten; between minus
nine and minus one Python negative indexing returns one of the nine
valid status names, counted from the end of the list. -/
theorem dst_to_str_spec (i : ℤ) :
    (dst_to_str i = "Invalid device status value: " ++ intStr i ↔ 9 ≤ i ∨ i ≤ -10) ∧
    (-9 ≤ i → i ≤ -1 → dst_to_str i ∈ dst_strs ∧
      dst_to_str i = dst_strs.getD (i + 9).toNat "") := by
  by_cases h1 : 9 ≤ i
  · have hget : pyListGet dst_strs i = none := by
      unfold pyListGet
      rw [if_pos (by omega : (0:ℤ) ≤ i)]
      apply List.get?_eq_none.mpr
      have hl : dst_strs.length = 9 := rfl
      rw [hl]
      omega
    have hfall : dst_to_str i = "Invalid device status value: " ++ intStr i := by
      unfold dst_to_str
      rw [hget]
    exact ⟨⟨fun _ => Or.inl h1, fun _ => hfall⟩, fun _ hb => absurd h1 (by omega)⟩
  · by_cases h2 : i ≤ -10
    · have hget : pyListGet dst_strs i = none := by
        unfold pyListGet
        rw [if_neg (by omega : ¬ (0:ℤ) ≤ i), if_neg ?_]
        have hl : ((dst_strs.length : ℤ) = 9) := rfl
        rw [hl]
        omega
      have hfall : dst_to_str i = "Invalid device status value: " ++ intStr i := by
        unfold dst_to_str
        rw [hget]
      exact ⟨⟨fun _ => Or.inr h2, fun _ => hfall⟩, fun ha _ => absurd h2 (by omega)⟩
    · have hlo : -9 ≤ i := by omega
      have hhi : i ≤ 8 := by omega
      interval_cases i <;> decide

theorem digitVal_digitChar10 (d : ℕ) (hd : d < 10) : digitVal (digitChar10 d) = some d := by
  interval_cases d <;> decide

theorem digitChar10_ne (d : ℕ) (hd : d < 10) :
    digitChar10 d ≠ '.' ∧ digitChar10 d ≠ '+' ∧ digitChar10 d ≠ '-' := by
  interval_cases d <;> decide

theorem digitsValAux_map (ds : List ℕ) (h : ∀ d ∈ ds, d < 10) (a : ℕ) :
    digitsValAux (ds.map digitChar10) a = some (ds.foldl (fun x d => x * 10 + d) a) := by
  induction ds generalizing a with
  | nil => rfl
  | cons d ds ih =>
    have hd := digitVal_digitChar10 d (h d (List.mem_cons_self d ds))
    simp only [List.map_cons, digitsValAux, hd, List.foldl_cons]
    exact ih (fun x hx => h x (List.mem_cons_of_mem d hx)) (a * 10 + d)

theorem digits_foldl (f : ℕ) : ∀ n a, n ≤ f →
    (natDigitsRevAux f n).reverse.foldl (fun x d => x * 10 + d) a =
      a * 10 ^ (natDigitsRevAux f n).length + n := by
  induction f with
  | zero =>
    intro n a hn
    interval_cases n
    simp [natDigitsRevAux]
  | succ f ih =>
    intro n a hn
    cases n with
    | zero => simp [natDigitsRevAux]
    | succ k =>
      rw [show natDigitsRevAux (f + 1) (k + 1) =
            (k + 1) % 10 :: natDigitsRevAux f ((k + 1) / 10) from rfl,
          List.reverse_cons, List.foldl_append, ih ((k + 1) / 10) a (by omega)]
      simp only [List.foldl_cons, List.foldl_nil, List.length_cons]
      have hdm := Nat.div_add_mod (k + 1) 10
      set b := a * 10 ^ (natDigitsRevAux f ((k + 1) / 10)).length with hb
      rw [pow_succ, ← mul_assoc, ← hb]
      omega

theorem natDigitsRevAux_lt (f : ℕ) : ∀ n d, d ∈ natDigitsRevAux f n → d < 10 := by
  induction f with
  | zero =>
    intro n d hd
    simp [natDigitsRevAux] at hd
  | succ f ih =>
    intro n d hd
    cases n with
    | zero => simp [natDigitsRevAux] at hd
    | succ k =>
      rw [show natDigitsRevAux (f + 1) (k + 1) =
            (k + 1) % 10 :: natDigitsRevAux f ((k + 1) / 10) from rfl] at hd
      rcases List.mem_cons.mp hd with rfl | hd2
      · exact Nat.mod_lt _ (by omega)
      · exact ih _ d hd2

theorem natDigitsRevAux_ne_nil (f k : ℕ) : natDigitsRevAux (f + 1) (k + 1) ≠ [] := by
  rw [show natDigitsRevAux (f + 1) (k + 1) =
        (k + 1) % 10 :: natDigitsRevAux f ((k + 1) / 10) from rfl]
  simp

theorem natStrChars_ne_nil (m : ℕ) : natStrChars m ≠ [] := by
  unfold natStrChars
  cases m with
  | zero => simp
  | succ k =>
    rw [if_neg (Nat.succ_ne_zero k)]
    have h := natDigitsRevAux_ne_nil k k
    simp [natDigitsRev, h]

theorem digitsVal_natStrChars (n : ℕ) : digitsVal (natStrChars n) = some n := by
  cases n with
  | zero => decide
  | succ k =>
    have hne : natDigitsRevAux (k + 1) (k + 1) ≠ [] := natDigitsRevAux_ne_nil k k
    have hlt : ∀ d ∈ (natDigitsRevAux (k + 1) (k + 1)).reverse, d < 10 := by
      intro d hd
      exact natDigitsRevAux_lt (k + 1) (k + 1) d (List.mem_reverse.mp hd)
    unfold natStrChars
    rw [if_neg (Nat.succ_ne_zero k)]
    unfold digitsVal natDigitsRev
    rw [if_neg (by simp [hne]), digitsValAux_map _ hlt 0,
        digits_foldl (k + 1) (k + 1) 0 le_rfl]
    simp

theorem natStrChars_digits (n : ℕ) : ∀ c ∈ natStrChars n, ∃ d, d < 10 ∧ c = digitChar10 d := by
  intro c hc
  unfold natStrChars at hc
  by_cases h : n = 0
  · rw [if_pos h] at hc
    simp at hc
    exact ⟨0, by omega, by rw [hc]; decide⟩
  · rw [if_neg h] at hc
    rcases List.mem_map.mp hc with ⟨d, hd, rfl⟩
    exact ⟨d, natDigitsRevAux_lt n n d (List.mem_reverse.mp hd), rfl⟩

theorem pyIntOfChars_digits (cs : List Char)
    (h : ∀ c ∈ cs, ∃ d, d < 10 ∧ c = digitChar10 d) (hne : cs ≠ []) :
    pyIntOfChars cs = (digitsVal cs).map Int.ofNat := by
  cases cs with
  | nil => exact absurd rfl hne
  | cons c rest =>
    obtain ⟨d, hd, rfl⟩ := h c (List.mem_cons_self c rest)
    have hne2 := digitChar10_ne d hd
    have hred : pyIntOfChars (digitChar10 d :: rest) =
        if digitChar10 d = '+' then (digitsVal rest).map Int.ofNat
        else if digitChar10 d = '-' then (digitsVal rest).map (fun n => -(Int.ofNat n))
        else (digitsVal (digitChar10 d :: rest)).map Int.ofNat := rfl
    rw [hred, if_neg hne2.2.1, if_neg hne2.2.2]

theorem pyInt_intStr (n : ℤ) : pyInt (intStr n) = some n := by
  unfold pyInt intStr
  rw [show (String.mk (intStrChars n)).toList = intStrChars n from rfl]
  unfold intStrChars
  by_cases hneg : n < 0
  · rw [if_pos hneg]
    have hred : pyIntOfChars ('-' :: natStrChars n.natAbs) =
        if ('-' : Char) = '+' then (digitsVal (natStrChars n.natAbs)).map Int.ofNat
        else if ('-' : Char) = '-' then
          (digitsVal (natStrChars n.natAbs)).map (fun m => -(Int.ofNat m))
        else (digitsVal ('-' :: natStrChars n.natAbs)).map Int.ofNat := rfl
    rw [hred, if_neg (by decide : ¬ ('-' : Char) = '+'), if_pos rfl, digitsVal_natStrChars]
    simp only [Option.map_some']
    congr 1
    rw [Int.ofNat_eq_natCast]
    omega
  · rw [if_neg hneg,
        pyIntOfChars_digits _ (natStrChars_digits n.natAbs) (natStrChars_ne_nil _),
        digitsVal_natStrChars]
    simp only [Option.map_some']
    congr 1
    rw [Int.ofNat_eq_natCast]
    omega

theorem dot_not_mem_intStrChars (n : ℤ) : '.' ∉ intStrChars n := by
  unfold intStrChars
  by_cases h : n < 0
  · rw [if_pos h]
    intro hc
    rcases List.mem_cons.mp hc with h2 | h2
    · exact absurd h2 (by decide)
    · obtain ⟨d, hd, heq⟩ := natStrChars_digits n.natAbs '.' h2
      exact (digitChar10_ne d hd).1 heq.symm
  · rw [if_neg h]
    intro hc
    obtain ⟨d, hd, heq⟩ := natStrChars_digits n.natAbs '.' hc
    exact (digitChar10_ne d hd).1 heq.symm

theorem str_to_number_intStr (n : ℤ) : str_to_number (intStr n) = .int n := by
  have hdot : '.' ∉ (intStr n).toList := dot_not_mem_intStrChars n
  unfold str_to_number
  rw [if_neg hdot, pyInt_intStr]

theorem tryBools_str_inv (s t : String) (h : tryBools s = .str t) : t = s := by
  unfold tryBools at h
  by_cases h1 : pyLower s = "false"
  · rw [if_pos h1] at h
    exact absurd h (by simp)
  · rw [if_neg h1] at h
    by_cases h2 : pyLower s = "true"
    · rw [if_pos h2] at h
      exact absurd h (by simp)
    · rw [if_neg h2] at h
      injection h with h
      exact h.symm

theorem str_to_number_str_inv (s t : String) (h : str_to_number s = .str t) : t = s := by
  unfold str_to_number at h
  by_cases hdot : '.' ∈ s.toList
  · rw [if_pos hdot] at h
    cases hq : pyFloat s with
    | some d =>
      rw [hq] at h
      simp at h
    | none =>
      rw [hq] at h
      exact tryBools_str_inv s t h
  · rw [if_neg hdot] at h
    cases hq : pyInt s with
    | some n =>
      rw [hq] at h
      simp at h
    | none =>
      rw [hq] at h
      exact tryBools_str_inv s t h

/-- C8 counterexample: coercing `"1.0e20"` produces the Real `1e20`,
whose canonical Python rendering is `"1e+20"`; that rendering contains
no dot, so re-coercion returns it as Text, not the original Real. -/
theorem coerce_idem_cex :
    str_to_number "1.0e20" = .real ⟨1, 20⟩ ∧
    pyStrOfVal (.real ⟨1, 20⟩) = "1e+20" ∧
    str_to_number "1e+20" = .str "1e+20" := by decide

/-- C8 (amended): coercion is idempotent on canonical string forms for
Integer, Boolean and Text values; for a Real value it is idempotent
provided its canonical rendering contains a dot and parses back to the
same value, while exponent-notation renderings without a dot re-coerce
to Text. -/
theorem coerce_idem_amended (s : String) (v : PyVal) (hp : str_to_number s = v) :
    (∀ n, v = .int n → str_to_number (pyStrOfVal v) = v) ∧
    (∀ b, v = .bool b → str_to_number (pyStrOfVal v) = v) ∧
    (∀ t, v = .str t → str_to_number (pyStrOfVal v) = v) ∧
    (∀ d, v = .real d → '.' ∈ (pyStrOfVal v).toList → pyFloat (pyStrOfVal v) = some d →
      str_to_number (pyStrOfVal v) = v) := by
  refine ⟨?_, ?_, ?_, ?_⟩
  · rintro n rfl
    exact str_to_number_intStr n
  · rintro b rfl
    cases b
    · decide
    · decide
  · rintro t rfl
    have ht := str_to_number_str_inv s t hp
    subst ht
    exact hp
  · rintro d rfl hdot hpf
    unfold str_to_number
    rw [if_pos hdot, hpf]

theorem coerce_idem_amended_witness :
    str_to_number "3.5" = .real ⟨35, -1⟩ ∧
    '.' ∈ (pyStrOfVal (.real ⟨35, -1⟩)).toList ∧
    pyFloat (pyStrOfVal (.real ⟨35, -1⟩)) = some ⟨35, -1⟩ ∧
    str_to_number (pyStrOfVal (.real ⟨35, -1⟩)) = .real ⟨35, -1⟩ :=
  ⟨by decide, by decide, by decide,
   (coerce_idem_amended "3.5" (.real ⟨35, -1⟩) (by decide)).2.2.2
     ⟨35, -1⟩ rfl (by decide) (by decide)⟩

theorem get_data_cons_ok (r : Option String) (rs : List (Option String))
    (vals : List PyVal) (v : PyVal) (acc : List (List PyVal))
    (hc : trough_call "GetData" r = .ok (.tup (v :: vals))) :
    get_data (r :: rs) acc =
      if pyEqZero v then some (.ok (acc ++ [v :: vals]))
      else get_data rs (acc ++ [v :: vals]) := by
  have hred : get_data (r :: rs) acc =
      match trough_call "GetData" r with
      | .error (.troughError _) => some (.error (.typeError typeErrorInitMsg))
      | .error e => some (.error e)
      | .ok ret =>
        match ret with
        | .tup tvals =>
          match tvals with
          | [] => some (.error (.indexError "tuple index out of range"))
          | w :: _ =>
            if pyEqZero w then some (.ok (acc ++ [tvals]))
            else get_data rs (acc ++ [tvals])
        | _ => some (.error (.typeError "GetData result shaping always yields a tuple")) := rfl
  rw [hred, hc]

theorem get_data_append (front : List (List PyVal)) :
    ∀ (lines : List (Option String)) (tlast : List PyVal) (acc : List (List PyVal)),
      List.Forall₂ (fun l t => trough_call "GetData" l = .ok (.tup t)) lines (front ++ [tlast]) →
      (∀ t ∈ front, ∃ c : ℤ, 0 < c ∧ t.head? = some (.int c)) →
      tlast.head? = some (.int 0) →
      get_data lines acc = some (.ok (acc ++ (front ++ [tlast]))) := by
  induction front with
  | nil =>
    intro lines tlast acc hf _ hlast
    rw [List.nil_append] at hf
    cases hf with
    | cons h1 h2 =>
      cases h2
      obtain ⟨v, rest, rfl⟩ : ∃ v rest, tlast = v :: rest := by
        cases tlast with
        | nil => simp at hlast
        | cons v rest => exact ⟨v, rest, rfl⟩
      have hv : v = .int 0 := by simpa using hlast
      subst hv
      rw [get_data_cons_ok _ _ _ _ _ h1, if_pos (by decide)]
      simp
  | cons t front ih =>
    intro lines tlast acc hf hpos hlast
    rw [List.cons_append] at hf
    cases hf with
    | cons h1 h2 =>
      obtain ⟨c, hc, hhead⟩ := hpos t (List.mem_cons_self t front)
      obtain ⟨rest, rfl⟩ : ∃ rest, t = .int c :: rest := by
        cases t with
        | nil => simp at hhead
        | cons v rest =>
          have hv : v = .int c := by simpa using hhead
          subst hv
          exact ⟨rest, rfl⟩
      rw [get_data_cons_ok _ _ _ _ _ h1, if_neg ?_]
      · rw [ih _ tlast (acc ++ [.int c :: rest]) h2
          (fun x hx => hpos x (List.mem_cons_of_mem _ hx)) hlast]
        simp
      · simp only [pyEqZero, beq_iff_eq]
        omega

/-- C4: one poll cycle repeatedly issues the drain command, appends each
returned Measurement to the batch oldest first, continues while the
leading pending count is positive, stops at the response whose count is
zero, and the data callback is invoked exactly once with the completed
batch. -/
theorem poll_cycle_drain (lines : List (Option String)) (front : List (List PyVal))
    (tlast : List PyVal)
    (hcalls : List.Forall₂ (fun l t => trough_call "GetData" l = .ok (.tup t))
      lines (front ++ [tlast]))
    (hpos : ∀ t ∈ front, ∃ c : ℤ, 0 < c ∧ t.head? = some (.int c))
    (hlast : tlast.head? = some (.int 0)) :
    get_data lines [] = some (.ok (front ++ [tlast])) ∧
    run_cycle false lines = .didData (front ++ [tlast]) := by
  have h := get_data_append front lines tlast [] hcalls hpos hlast
  rw [List.nil_append] at h
  refine ⟨h, ?_⟩
  unfold run_cycle
  rw [if_neg (by simp), h]

theorem poll_cycle_drain_witness :
    List.Forall₂ (fun l t => trough_call "GetData" l = .ok (.tup t))
      [some "OK: 2 1 2\n", some "OK: 1 5 6\n", some "OK: 0 7 8\n"]
      ([[.int 2, .int 1, .int 2], [.int 1, .int 5, .int 6]] ++ [[.int 0, .int 7, .int 8]]) ∧
    run_cycle false [some "OK: 2 1 2\n", some "OK: 1 5 6\n", some "OK: 0 7 8\n"] =
      .didData ([[.int 2, .int 1, .int 2], [.int 1, .int 5, .int 6]] ++
        [[.int 0, .int 7, .int 8]]) := by
  have hf : List.Forall₂ (fun l t => trough_call "GetData" l = .ok (.tup t))
      [some "OK: 2 1 2\n", some "OK: 1 5 6\n", some "OK: 0 7 8\n"]
      ([[.int 2, .int 1, .int 2], [.int 1, .int 5, .int 6]] ++ [[.int 0, .int 7, .int 8]]) :=
    .cons (by decide) (.cons (by decide) (.cons (by decide) .nil))
  refine ⟨hf, (poll_cycle_drain _ [[.int 2, .int 1, .int 2], [.int 1, .int 5, .int 6]]
    [.int 0, .int 7, .int 8] hf ?_ rfl).2⟩
  intro t ht
  rcases List.mem_cons.mp ht with rfl | ht2
  · exact ⟨2, by decide, rfl⟩
  · rcases List.mem_cons.mp ht2 with rfl | ht3
    · exact ⟨1, by decide, rfl⟩
    · cases ht3

theorem dst_to_str_spec_witness :
    (-9 : ℤ) ≤ -3 ∧ (-3 : ℤ) ≤ -1 ∧ dst_to_str (-3) ∈ dst_strs ∧
    dst_to_str 12 = "Invalid device status value: " ++ intStr 12 :=
  ⟨by decide, by decide, ((dst_to_str_spec (-3)).2 (by decide) (by decide)).1,
   (dst_to_str_spec 12).1.mpr (Or.inl (by decide))⟩
